import Mathlib

/-!
# RGB-D odometry nodelet (`src/nodelets/rgbd_odometry.cpp`)

A shallow embedding of `rtabmap_ros::RGBDOdometry`: the parameter handling of
`onOdomInit` and `updateParameters`, and the frame assembly of `commonCallback`.

Conventions of the embedding.

* `ros::Time` is a number of nanoseconds (`Nat`); the comparison of two stamps is the
  comparison of these numbers.
* `cv::Mat` is a header (rows, columns, OpenCV type code) with an element function; an
  element is one packed pixel value.  Image dimensions are natural numbers, the products
  `imageWidth*cameraCount` and `i*imageWidth` are taken without wrap-around.
* The slot of the canvas that `copyTo` writes is a temporary sub-matrix, a destination of
  fixed size: the copy of an image without elements, or of another size, raises
  `cv::Exception` (`Outcome.cvException`).
* A call of `commonCallback` ends in one of four ways, see `Outcome`.  A condition of
  `ROS_ASSERT` or `UASSERT_MSG` that is not met ends the call (`Outcome.assertion`);
  `processData` is taken to return.
* `cv_bridge::cvtColor`, `rtabmap_ros::cameraModelFromROS`, `rtabmap_ros::timestampFromROS`
  and `OdometryROS::getTransform` are not part of the file under study; the first two are
  modelled, the last two are parameters (`Env`).  The checks inside the constructor of
  `rtabmap::SensorData` are outside the model.
-/

namespace RGBDOdometry

/-! ## Encodings and matrices -/

/-- String `sensor_msgs::image_encodings::TYPE_8UC1`. -/
def TYPE_8UC1 : String := "8UC1"
/-- String `sensor_msgs::image_encodings::MONO8`. -/
def MONO8 : String := "mono8"
/-- String `sensor_msgs::image_encodings::MONO16`. -/
def MONO16 : String := "mono16"
/-- String `sensor_msgs::image_encodings::BGR8`. -/
def BGR8 : String := "bgr8"
/-- String `sensor_msgs::image_encodings::RGB8`. -/
def RGB8 : String := "rgb8"
/-- String `sensor_msgs::image_encodings::TYPE_16UC1`. -/
def TYPE_16UC1 : String := "16UC1"
/-- String `sensor_msgs::image_encodings::TYPE_32FC1`. -/
def TYPE_32FC1 : String := "32FC1"

/-- OpenCV type code of 8-bit unsigned, one channel. -/
def CV_8UC1 : Nat := 0
/-- OpenCV type code of 16-bit unsigned, one channel. -/
def CV_16UC1 : Nat := 2
/-- OpenCV type code of 32-bit float, one channel. -/
def CV_32FC1 : Nat := 5
/-- OpenCV type code of 8-bit unsigned, three channels. -/
def CV_8UC3 : Nat := 16
/-- The OpenCV type that `cv_bridge` gives to an image of the encodings the node accepts
(`cv_bridge::getCvType`); `none` for every other encoding. -/
def getCvType (encoding : String) : Option Nat :=
  if encoding = TYPE_8UC1 then some CV_8UC1
  else if encoding = MONO8 then some CV_8UC1
  else if encoding = MONO16 then some CV_16UC1
  else if encoding = BGR8 then some CV_8UC3
  else if encoding = RGB8 then some CV_8UC3
  else if encoding = TYPE_16UC1 then some CV_16UC1
  else if encoding = TYPE_32FC1 then some CV_32FC1
  else none

/-- Matrix `cv::Mat`: header and elements. -/
structure Mat where
  rows : Nat
  cols : Nat
  type : Nat
  data : Nat → Nat → Nat

/-- The default-constructed `cv::Mat` (`cv::Mat rgb;`): no rows, no columns, type code 0. -/
def Mat.default : Mat := ⟨0, 0, 0, fun _ _ => 0⟩

/-- Test `cv::Mat::empty()`: the matrix has no element. -/
def Mat.empty (m : Mat) : Bool := m.rows == 0 || m.cols == 0

/-- Constructor `cv::Mat(rows, cols, type)`; the unspecified initial elements are 0. -/
def Mat.create (rows cols type : Nat) : Mat := ⟨rows, cols, type, fun _ _ => 0⟩

/-- Statement `src.copyTo(cv::Mat(dst, cv::Rect(x, y, width, height)))`; `none` is a
`cv::Exception`.  Taking the sub-matrix fails when the rectangle is not inside `dst`.
The sub-matrix is a temporary, so it is a destination of fixed size: `copyTo` fails for a
source without elements (it releases the destination) and for a source of another size
(it allocates the destination again), and otherwise writes the elements of the source
through the sub-matrix header into `dst`.  Both calls of the loop are made after the
check that the types are equal (lines 285 and 295); the conversion of elements that
OpenCV makes for a source of another type is not modelled. -/
def Mat.copyToRoi (src dst : Mat) (x y width height : Nat) : Option Mat :=
  if x + width ≤ dst.cols ∧ y + height ≤ dst.rows then
    if src.empty = false ∧ src.rows = height ∧ src.cols = width then
      some { dst with
        data := fun r c =>
          if y ≤ r ∧ r < y + height ∧ x ≤ c ∧ c < x + width then src.data (r - y) (c - x)
          else dst.data r c }
    else none
  else none

/-! ## Messages -/

/-- Message header `std_msgs::Header`: the fields the node reads. -/
structure Header where
  stamp : Nat
  frame_id : String

/-- Image `cv_bridge::CvImage`. -/
structure CvImage where
  header : Header
  encoding : String
  image : Mat

/-- Calibration message `sensor_msgs::CameraInfo`: resolution and the intrinsic matrix. -/
structure CameraInfo where
  width : Nat
  height : Nat
  K : List Int
deriving DecidableEq

/-- Rigid transform `rtabmap::Transform`: its matrix entries. -/
structure Transform where
  entries : List Int
deriving DecidableEq

/-- Test `Transform::isNull()`: no entry is non-zero. -/
def Transform.isNull (t : Transform) : Bool := t.entries.all (fun e => e == 0)

/-- Camera model `rtabmap::CameraModel`, as far as the node determines it. -/
structure CameraModel where
  info : CameraInfo
  localTransform : Transform
deriving DecidableEq

/-- Modelled from the spec: `rtabmap_ros::cameraModelFromROS` of `MsgConversion.h` is
missing; the geometric model is the intrinsics combined with the resolved transform. -/
def cameraModelFromROS (camInfo : CameraInfo) (localTransform : Transform) : CameraModel :=
  ⟨camInfo, localTransform⟩

/-- Frame `rtabmap::SensorData` as built by the constructor
`SensorData(rgb, depth, cameraModels, id, stamp)`. -/
structure SensorData where
  rgb : Mat
  depth : Mat
  cameraModels : List CameraModel
  id : Nat
  stamp : Nat

/-- The collaborators of the nodelet that live outside this file: the base frame id of
`OdometryROS::frameId()`, the lookup `OdometryROS::getTransform(from, to, stamp)`, the
pixel conversion performed by `cv_bridge::cvtColor` (source encoding, target encoding,
packed source pixel), and `rtabmap_ros::timestampFromROS`. -/
structure Env where
  frameId : String
  getTransform : String → String → Nat → Transform
  convertPixel : String → String → Nat → Nat
  timestampFromROS : Nat → Nat

/-- Modelled from the spec: `cv_bridge::cvtColor(source, encoding)` is missing; it
produces an image of the target encoding (single-channel 8-bit for `mono8`) of the same
size and header, every pixel converted. -/
def cvtColor (env : Env) (source : CvImage) (encoding : String) : CvImage :=
  { header := source.header
    encoding := encoding
    image :=
      { rows := source.image.rows
        cols := source.image.cols
        type := (getCvType encoding).getD CV_8UC1
        data := fun r c => env.convertPixel source.encoding encoding (source.image.data r c) } }

/-! ## `commonCallback` -/

/-- How a call of `commonCallback` ends. -/
inductive Outcome where
  /-- The call reaches `this->processData(data, higherStamp)`. -/
  | processData (data : SensorData) (stamp : Nat)
  /-- The call leaves through one of the `return` statements of the loop, after
  `NODELET_ERROR(error)` when there is one. -/
  | returned (error : Option String)
  /-- The condition of `ROS_ASSERT` or `UASSERT_MSG` is not met. -/
  | assertion (condition : String)
  /-- Taking a sub-matrix outside the canvas raises `cv::Exception`. -/
  | cvException

/-- The local variables of `commonCallback` that the loop updates. -/
structure Locals where
  higherStamp : Nat
  rgb : Mat
  depth : Mat
  cameraModels : List CameraModel

/-- The locals before the loop: the default `ros::Time`, two default matrices and no
camera model. -/
def Locals.init : Locals :=
  { higherStamp := 0, rgb := Mat.default, depth := Mat.default, cameraModels := [] }

/-- The condition of the first `if` of the loop body (lines 223-230). -/
def unsupportedEncoding (rgbImage depthImage : CvImage) : Bool :=
  !(rgbImage.encoding == TYPE_8UC1 ||
    rgbImage.encoding == MONO8 ||
    rgbImage.encoding == MONO16 ||
    rgbImage.encoding == BGR8 ||
    rgbImage.encoding == RGB8) ||
  !(depthImage.encoding == TYPE_16UC1 ||
    depthImage.encoding == TYPE_32FC1 ||
    depthImage.encoding == MONO16)

/-- The color image that is copied into the canvas (lines 265-270): the input itself
when it is `8UC1` or `mono8`, its conversion to `mono8` otherwise. -/
def ptrImage (env : Env) (rgbImage : CvImage) : CvImage :=
  if rgbImage.encoding != TYPE_8UC1 && rgbImage.encoding != MONO8 then
    cvtColor env rgbImage "mono8"
  else rgbImage

/-- The stamp of one camera (line 248): the later of its color and depth stamps. -/
def cameraStamp (rgbImage depthImage : CvImage) : Nat :=
  if rgbImage.header.stamp > depthImage.header.stamp then rgbImage.header.stamp
  else depthImage.header.stamp

/-- The lazy allocation of a canvas (lines 276-283): a canvas that is still empty is
allocated with `imageHeight` rows, `imageWidth*cameraCount` columns and the given type. -/
def initCanvas (canvas : Mat) (imageHeight imageWidth cameraCount type : Nat) : Mat :=
  if canvas.empty then Mat.create imageHeight (imageWidth * cameraCount) type else canvas

/-- One iteration of the `for` loop of `commonCallback` (lines 223-305) for camera `i`. -/
def loopBody (env : Env) (imageWidth imageHeight cameraCount i : Nat)
    (rgbImage depthImage : CvImage) (cameraInfo : CameraInfo) (s : Locals) :
    Except Outcome Locals :=
  if unsupportedEncoding rgbImage depthImage then
    .error (.returned (some
      "Input type must be image=mono8,mono16,rgb8,bgr8 and image_depth=32FC1,16UC1,mono16"))
  else if ¬ (rgbImage.image.cols = imageWidth ∧ rgbImage.image.rows = imageHeight) then
    .error (.assertion
      "rgbImages[i]->image.cols == imageWidth && rgbImages[i]->image.rows == imageHeight")
  else if ¬ (depthImage.image.cols = imageWidth ∧ depthImage.image.rows = imageHeight) then
    .error (.assertion
      "depthImages[i]->image.cols == imageWidth && depthImages[i]->image.rows == imageHeight")
  else
    let stamp := cameraStamp rgbImage depthImage
    let higherStamp :=
      if i = 0 then stamp else if stamp > s.higherStamp then stamp else s.higherStamp
    let localTransform := env.getTransform env.frameId rgbImage.header.frame_id stamp
    if localTransform.isNull then .error (.returned none)
    else
      let ptrImg := ptrImage env rgbImage
      let subDepth := depthImage.image
      let rgb := initCanvas s.rgb imageHeight imageWidth cameraCount ptrImg.image.type
      let depth := initCanvas s.depth imageHeight imageWidth cameraCount subDepth.type
      if ptrImg.image.type = rgb.type then
        match ptrImg.image.copyToRoi rgb (i * imageWidth) 0 imageWidth imageHeight with
        | none => .error .cvException
        | some rgb1 =>
          if subDepth.type = depth.type then
            match subDepth.copyToRoi depth (i * imageWidth) 0 imageWidth imageHeight with
            | none => .error .cvException
            | some depth1 =>
              .ok { higherStamp := higherStamp
                    rgb := rgb1
                    depth := depth1
                    cameraModels :=
                      s.cameraModels ++ [cameraModelFromROS cameraInfo localTransform] }
          else .error (.returned (some "Some Depth images are not the same type!"))
      else .error (.returned (some "Some RGB images are not the same type!"))

/-- The `for` loop of `commonCallback` from camera `i` on; the list holds, for every
remaining camera, its color image, depth image and calibration. -/
def loop (env : Env) (imageWidth imageHeight cameraCount : Nat) :
    Nat → List (CvImage × CvImage × CameraInfo) → Locals → Except Outcome Locals
  | _, [], s => .ok s
  | i, (rgbImage, depthImage, cameraInfo) :: rest, s =>
    match loopBody env imageWidth imageHeight cameraCount i rgbImage depthImage cameraInfo s with
    | .error o => .error o
    | .ok s1 => loop env imageWidth imageHeight cameraCount (i + 1) rest s1

/-- Method `RGBDOdometry::commonCallback(rgbImages, depthImages, cameraInfos)`. -/
def commonCallback (env : Env) (rgbImages depthImages : List CvImage)
    (cameraInfos : List CameraInfo) : Outcome :=
  match rgbImages with
  | [] => .assertion "rgbImages.size() > 0"
  | first :: _ =>
    if rgbImages.length = depthImages.length ∧ rgbImages.length = cameraInfos.length then
      let imageWidth := first.image.cols
      let imageHeight := first.image.rows
      let cameraCount := rgbImages.length
      match loop env imageWidth imageHeight cameraCount 0
          (rgbImages.zip (depthImages.zip cameraInfos)) Locals.init with
      | .error o => o
      | .ok s =>
        .processData
          { rgb := s.rgb
            depth := s.depth
            cameraModels := s.cameraModels
            id := 0
            stamp := env.timestampFromROS s.higherStamp }
          s.higherStamp
    else .assertion "rgbImages.size() == depthImages.size() && rgbImages.size() == cameraInfos.size()"

/-- The call dispatches a frame to the odometry engine. -/
def Outcome.dispatched : Outcome → Bool
  | .processData _ _ => true
  | _ => false

/-- The call abandons the group and returns normally: it leaves through a `return` of
the loop, so `processData` is not called and nothing is raised. -/
def Outcome.abandoned : Outcome → Bool
  | .returned _ => true
  | _ => false

/-! ## `onOdomInit` -/

/-- Severity of a log statement. -/
inductive Severity where
  | warn
  | error
  | fatal
deriving DecidableEq

/-- The private parameters read by `onOdomInit`; `none` is a parameter that is not set. -/
structure PrivateParams where
  approx_sync : Option Bool
  queue_size : Option Int
  subscribe_rgbd : Option Bool
  depth_cameras : Bool
  rgbd_cameras : Option Int

/-- The members of the nodelet that `onOdomInit` sets, and the log it writes: the topic
of every subscriber that has subscribed, and which synchronizer pointers are non-null. -/
structure Node where
  image_mono_sub_ : Option String
  image_depth_sub_ : Option String
  info_sub_ : Option String
  rgbdSub_ : Option String
  rgbd_image1_sub_ : Option String
  rgbd_image2_sub_ : Option String
  approxSync_ : Bool
  exactSync_ : Bool
  approxSync2_ : Bool
  exactSync2_ : Bool
  queueSize_ : Int
  log : List (Severity × String)
deriving DecidableEq

/-- The nodelet after its constructor. -/
def Node.init : Node :=
  { image_mono_sub_ := none, image_depth_sub_ := none, info_sub_ := none,
    rgbdSub_ := none, rgbd_image1_sub_ := none, rgbd_image2_sub_ := none,
    approxSync_ := false, exactSync_ := false, approxSync2_ := false, exactSync2_ := false,
    queueSize_ := 5, log := [] }

/-- Method `RGBDOdometry::onOdomInit()`.  The text `subscribedTopicsMsg` and the call of
`startWarningThread` are left out. -/
def onOdomInit (pnh : PrivateParams) (node : Node) : Node :=
  let approxSync := pnh.approx_sync.getD true
  let queueSize := pnh.queue_size.getD node.queueSize_
  let subscribeRGBD := pnh.subscribe_rgbd.getD false
  let log1 :=
    if pnh.depth_cameras then
      node.log ++ [(Severity.error, "\"depth_cameras\" parameter doesn't exist anymore. It is replaced by \"rgbd_cameras\" with the \"rgbd_image\" input topics. \"subscribe_rgbd\" should be also set to true.")]
    else node.log
  let rgbdCameras0 := pnh.rgbd_cameras.getD 1
  let rgbdCameras := if rgbdCameras0 ≤ 0 then 1 else rgbdCameras0
  let log2 :=
    if rgbdCameras > 2 then log1 ++ [(Severity.fatal, "Only 2 cameras maximum supported yet.")]
    else log1
  let node1 := { node with queueSize_ := queueSize, log := log2 }
  if subscribeRGBD then
    if rgbdCameras = 2 then
      let node2 :=
        { node1 with rgbd_image1_sub_ := some "rgbd_image0", rgbd_image2_sub_ := some "rgbd_image1" }
      if approxSync then { node2 with approxSync2_ := true }
      else { node2 with exactSync2_ := true }
    else
      { node1 with rgbdSub_ := some "rgbd_image" }
  else
    let node2 :=
      { node1 with
        image_mono_sub_ := some "rgb/image"
        image_depth_sub_ := some "depth/image"
        info_sub_ := some "rgb/camera_info" }
    if approxSync then { node2 with approxSync_ := true }
    else { node2 with exactSync_ := true }

/-- A fatal diagnostic has been reported. -/
def Node.fatalReported (node : Node) : Bool :=
  node.log.any (fun e => e.1 == Severity.fatal)

/-- No input topology is active: no subscriber has subscribed and no synchronizer exists. -/
def Node.noTopology (node : Node) : Bool :=
  node.image_mono_sub_.isNone && node.image_depth_sub_.isNone && node.info_sub_.isNone &&
  node.rgbdSub_.isNone && node.rgbd_image1_sub_.isNone && node.rgbd_image2_sub_.isNone &&
  !node.approxSync_ && !node.exactSync_ && !node.approxSync2_ && !node.exactSync2_

/-! ## `updateParameters` -/

/-- Map `rtabmap::ParametersMap` (`std::map<std::string, std::string>`): its entries,
one per key. -/
abbrev ParametersMap := List (String × String)

/-- Key `Parameters::kRegStrategy()`. -/
def kRegStrategy : String := "Reg/Strategy"

/-- Lookup `parameters.find(key)`: the value of the entry of `key`, when there is one. -/
def find : ParametersMap → String → Option String
  | [], _ => none
  | (k, v) :: rest, key => if k = key then some v else find rest key

/-- Function `uInsert(map, pair)` of `UStl.h`: insert the pair, or overwrite the value
of the entry that already has its key. -/
def uInsert : ParametersMap → String × String → ParametersMap
  | [], pair => [pair]
  | (k, v) :: rest, pair =>
    if k = pair.1 then (k, pair.2) :: rest else (k, v) :: uInsert rest pair

/-- Method `RGBDOdometry::updateParameters(parameters)`: the updated map and the
warnings written. -/
def updateParameters (parameters : ParametersMap) : ParametersMap × List String :=
  let iter := find parameters kRegStrategy
  let log :=
    match iter with
    | some value =>
      if value ≠ "0" then
        ["RGBD odometry works only with \"Reg/Strategy\"=0. Ignoring value " ++ value ++ "."]
      else []
    | none => []
  (uInsert parameters (kRegStrategy, "0"), log)

/-! ## Sample inputs -/

/-- A `rows` x `cols` image whose pixel at `(r, c)` is `base + 10*r + c`. -/
def sampleImage (stamp : Nat) (frame encoding : String) (rows cols type base : Nat) : CvImage :=
  { header := ⟨stamp, frame⟩
    encoding := encoding
    image := ⟨rows, cols, type, fun r c => base + 10 * r + c⟩ }

/-- A lookup that resolves every frame but `"lost"`, and a conversion that halves a pixel. -/
def sampleEnv : Env :=
  { frameId := "base_link"
    getTransform := fun _ target _ => if target = "lost" then ⟨[0, 0, 0]⟩ else ⟨[1, 0, 0]⟩
    convertPixel := fun _ _ p => p / 2
    timestampFromROS := fun t => t }

/-- A calibration message. -/
def sampleInfo (n : Int) : CameraInfo := ⟨3, 2, [n]⟩

/-- Two color images of 2 rows and 3 columns, `mono8` and `rgb8`. -/
def sampleRgb : List CvImage :=
  [sampleImage 5 "cam0" "mono8" 2 3 CV_8UC1 100, sampleImage 7 "cam1" "rgb8" 2 3 CV_8UC3 200]

/-- Two `16UC1` depth images of 2 rows and 3 columns. -/
def sampleDepth : List CvImage :=
  [sampleImage 6 "cam0" "16UC1" 2 3 CV_16UC1 300, sampleImage 4 "cam1" "16UC1" 2 3 CV_16UC1 400]

/-- The calibration messages of two cameras. -/
def sampleInfos : List CameraInfo := [sampleInfo 0, sampleInfo 1]

/-- Two `mono8` color images without rows and columns. -/
def emptyRgb : List CvImage :=
  [sampleImage 5 "cam0" "mono8" 0 0 CV_8UC1 0, sampleImage 7 "cam1" "mono8" 0 0 CV_8UC1 0]

/-- Two depth images without rows and columns, `16UC1` and `32FC1`. -/
def emptyDepth : List CvImage :=
  [sampleImage 6 "cam0" "16UC1" 0 0 CV_16UC1 0, sampleImage 4 "cam1" "32FC1" 0 0 CV_32FC1 0]

/-- Two `mono8` color images of 2 rows, the first of 3 columns and the second of 4. -/
def sampleRgbWide : List CvImage :=
  [sampleImage 5 "cam0" "mono8" 2 3 CV_8UC1 100, sampleImage 7 "cam1" "mono8" 2 4 CV_8UC1 200]

/-- The parameters of a node whose only private parameter is `rgbd_cameras`. -/
def sampleParams (rgbdCameras : Int) : PrivateParams :=
  { approx_sync := none, queue_size := none, subscribe_rgbd := none,
    depth_cameras := false, rgbd_cameras := some rgbdCameras }

/-- A parameter map with a registration strategy other than 0. -/
def sampleParameters : ParametersMap :=
  [("Odom/Strategy", "1"), ("Reg/Strategy", "2"), ("Vis/MaxFeatures", "600")]

/-! ## Properties of the canvases and of a group -/

/-- A canvas has the size of the composite frame. -/
def CanvasOk (h w n : Nat) (m : Mat) : Prop := m.rows = h ∧ m.cols = w * n

/-- The images of the cameras in `pre` stand side by side in the canvas `m`; `f` selects
the image of a camera. -/
def Placed (f : CvImage × CvImage × CameraInfo → Mat) (h w : Nat)
    (pre : List (CvImage × CvImage × CameraInfo)) (m : Mat) : Prop :=
  ∀ j cam, pre[j]? = some cam → ∀ r c, r < h → c < w →
    m.data r (j * w + c) = (f cam).data r c

/-- The state of the two canvases after the cameras in `pre` have been processed. -/
def Inv (env : Env) (h w n : Nat) (pre : List (CvImage × CvImage × CameraInfo))
    (s : Locals) : Prop :=
  (s.rgb.empty = false ∨ pre ≠ [] → CanvasOk h w n s.rgb) ∧
  (s.depth.empty = false ∨ pre ≠ [] → CanvasOk h w n s.depth) ∧
  Placed (fun cam => (ptrImage env cam.1).image) h w pre s.rgb ∧
  Placed (fun cam => cam.2.1.image) h w pre s.depth

/-- The later of the color and depth stamps of every camera, and of these the latest:
the maximum of the resolved stamps of the members of a group. -/
def groupStamp (rgbImages depthImages : List CvImage) : Nat :=
  ((rgbImages.zip depthImages).map
    (fun p => max p.1.header.stamp p.2.header.stamp)).foldr max 0

/-- The color encodings the node accepts. -/
def colorEncodings : List String := [TYPE_8UC1, MONO8, MONO16, BGR8, RGB8]

/-- The depth encodings the node accepts. -/
def depthEncodings : List String := [TYPE_16UC1, TYPE_32FC1, MONO16]

/-- The pixel type of the image is the one its encoding denotes. -/
def WellTyped (img : CvImage) : Prop := getCvType img.encoding = some img.image.type

instance (img : CvImage) : Decidable (WellTyped img) := by
  unfold WellTyped
  infer_instance

/-- The call fails an assertion (`ROS_ASSERT` or `UASSERT_MSG`). -/
def Outcome.asserted : Outcome → Bool
  | .assertion _ => true
  | _ => false

/-- The call raises a `cv::Exception`. -/
def Outcome.raised : Outcome → Bool
  | .cvException => true
  | _ => false

/-- The call leaves through the branch "Some RGB images are not the same type!". -/
def Outcome.rgbTypeError : Outcome → Bool
  | .returned (some error) => error == "Some RGB images are not the same type!"
  | _ => false

/-- A canvas that has been allocated has the size of the composite frame. -/
def CanvasWeak (h w n : Nat) (m : Mat) : Prop := m.empty = false → CanvasOk h w n m

/-! ## The loop body -/

/-- What a completed iteration of the loop tells about the camera and the new locals. -/
theorem loopBody_ok {env : Env} {w h n i : Nat} {rgbI depthI : CvImage} {info : CameraInfo}
    {s s1 : Locals} (hb : loopBody env w h n i rgbI depthI info s = .ok s1) :
    unsupportedEncoding rgbI depthI = false ∧
    (rgbI.image.cols = w ∧ rgbI.image.rows = h) ∧
    (depthI.image.cols = w ∧ depthI.image.rows = h) ∧
    (env.getTransform env.frameId rgbI.header.frame_id (cameraStamp rgbI depthI)).isNull = false ∧
    s1.higherStamp =
      (if i = 0 then cameraStamp rgbI depthI
       else if cameraStamp rgbI depthI > s.higherStamp then cameraStamp rgbI depthI
       else s.higherStamp) ∧
    s1.cameraModels = s.cameraModels ++
      [cameraModelFromROS info
        (env.getTransform env.frameId rgbI.header.frame_id (cameraStamp rgbI depthI))] ∧
    (ptrImage env rgbI).image.type = (initCanvas s.rgb h w n (ptrImage env rgbI).image.type).type ∧
    (ptrImage env rgbI).image.copyToRoi
      (initCanvas s.rgb h w n (ptrImage env rgbI).image.type) (i * w) 0 w h = some s1.rgb ∧
    depthI.image.type = (initCanvas s.depth h w n depthI.image.type).type ∧
    depthI.image.copyToRoi
      (initCanvas s.depth h w n depthI.image.type) (i * w) 0 w h = some s1.depth := by
  unfold loopBody at hb
  split at hb
  · cases hb
  split at hb
  · cases hb
  split at hb
  · cases hb
  simp only at hb
  split at hb
  · cases hb
  split at hb
  · split at hb
    · cases hb
    · split at hb
      · split at hb
        · cases hb
        · cases hb
          rename_i h1 h2 h3 h4 h5 _ _ h6 h7 _ _ h8
          refine ⟨by simpa using h1, not_not.mp h2, not_not.mp h3, by simpa using h4,
            rfl, rfl, h5, h6, h7, h8⟩
      · cases hb
  · cases hb

/-! ## The canvases -/

theorem copyToRoi_some {src dst out : Mat} {x w h : Nat}
    (hc : src.copyToRoi dst x 0 w h = some out) :
    x + w ≤ dst.cols ∧ h ≤ dst.rows ∧ out.rows = dst.rows ∧ out.cols = dst.cols ∧
    out.type = dst.type ∧
    (∀ r c, r < h → c < w → out.data r (x + c) = src.data r c) ∧
    (∀ r c, (c < x ∨ x + w ≤ c) → out.data r c = dst.data r c) := by
  unfold Mat.copyToRoi at hc
  split at hc
  · rename_i hin
    split at hc
    · cases hc
      refine ⟨hin.1, by omega, rfl, rfl, rfl, ?_, ?_⟩
      · intro r c hr hcw
        have : 0 ≤ r ∧ r < 0 + h ∧ x ≤ x + c ∧ x + c < x + w := by omega
        simp only [this, and_self, if_true]
        simp
      · intro r c hcx
        have : ¬ (0 ≤ r ∧ r < 0 + h ∧ x ≤ c ∧ c < x + w) := by omega
        simp only [this, if_false]
    · cases hc
  · cases hc

/-- A copy that succeeds has a source with elements, of the size of the rectangle. -/
theorem copyToRoi_source {src dst out : Mat} {x y w h : Nat}
    (hc : src.copyToRoi dst x y w h = some out) :
    src.empty = false ∧ src.rows = h ∧ src.cols = w := by
  unfold Mat.copyToRoi at hc
  split at hc
  · split at hc
    · rename_i hs
      exact hs
    · cases hc
  · cases hc

theorem not_empty_of_size {m : Mat} {w h : Nat} (hs : m.rows = h ∧ m.cols = w)
    (hpw : 0 < w) (hph : 0 < h) : m.empty = false := by
  unfold Mat.empty
  rw [hs.1, hs.2]
  simp only [Bool.or_eq_false_iff, beq_eq_false_iff_ne, ne_eq]
  omega

theorem copyToRoi_inside (src dst : Mat) {x w h : Nat}
    (hx : x + w ≤ dst.cols) (hh : h ≤ dst.rows)
    (hs : src.rows = h ∧ src.cols = w) (hpw : 0 < w) (hph : 0 < h) :
    ∃ out, src.copyToRoi dst x 0 w h = some out := by
  unfold Mat.copyToRoi
  rw [if_pos ⟨hx, by omega⟩, if_pos ⟨not_empty_of_size hs hpw hph, hs.1, hs.2⟩]
  exact ⟨_, rfl⟩

theorem initCanvas_ok {h w n : Nat} {canvas : Mat} (t : Nat)
    (hw : canvas.empty = false → CanvasOk h w n canvas) :
    CanvasOk h w n (initCanvas canvas h w n t) := by
  unfold initCanvas
  split
  · exact ⟨rfl, rfl⟩
  · rename_i he
    exact hw (by simpa using he)

/-- One write into a canvas: the canvas has the composite size afterwards, slot `i`
holds the source and the slots before it are kept. -/
theorem canvas_step {h w n i : Nat} {canvas src out : Mat}
    (hw : canvas.empty = false → CanvasOk h w n canvas)
    (_hs : src.rows = h ∧ src.cols = w)
    (ht : src.type = (initCanvas canvas h w n src.type).type)
    (hc : src.copyToRoi (initCanvas canvas h w n src.type) (i * w) 0 w h = some out) :
    CanvasOk h w n out ∧ out.type = src.type ∧ (i + 1) * w ≤ w * n ∧
    (∀ r c, r < h → c < w → out.data r (i * w + c) = src.data r c) ∧
    (∀ j r c, j < i → r < h → c < w → CanvasOk h w n canvas →
      out.data r (j * w + c) = canvas.data r (j * w + c)) := by
  have hok := initCanvas_ok src.type hw
  obtain ⟨h1, _, h3, h4, h5, h6, h7⟩ := copyToRoi_some hc
  have hle : (i + 1) * w ≤ w * n := by
    rw [hok.2] at h1
    rw [Nat.add_mul]
    omega
  refine ⟨⟨h3.trans hok.1, h4.trans hok.2⟩, h5.trans ht.symm, hle, h6, ?_⟩
  intro j r c hj hr hcw hcan
  have hjw : j * w + w ≤ i * w := by
    have := Nat.mul_le_mul_right w (Nat.succ_le_of_lt hj)
    rw [Nat.succ_mul] at this
    exact this
  rw [h7 r (j * w + c) (Or.inl (by omega))]
  unfold initCanvas
  split
  · rename_i he
    exfalso
    have hz : canvas.rows = 0 ∨ canvas.cols = 0 := by
      simpa [Mat.empty] using he
    rcases hz with hz | hz
    · rw [hcan.1] at hz
      omega
    · rw [hcan.2] at hz
      rw [hz] at hle
      have : w ≤ (i + 1) * w := Nat.le_mul_of_pos_left w (Nat.succ_pos i)
      omega
  · rfl

theorem placed_step (f : CvImage × CvImage × CameraInfo → Mat) {h w n : Nat}
    {pre : List (CvImage × CvImage × CameraInfo)} (cam : CvImage × CvImage × CameraInfo)
    {canvas out : Mat}
    (hw : canvas.empty = false ∨ pre ≠ [] → CanvasOk h w n canvas)
    (hp : Placed f h w pre canvas)
    (hs : (f cam).rows = h ∧ (f cam).cols = w)
    (ht : (f cam).type = (initCanvas canvas h w n (f cam).type).type)
    (hc : (f cam).copyToRoi (initCanvas canvas h w n (f cam).type)
      (pre.length * w) 0 w h = some out) :
    CanvasOk h w n out ∧ Placed f h w (pre ++ [cam]) out := by
  obtain ⟨hok, _, _, hnew, hold⟩ := canvas_step (fun he => hw (Or.inl he)) hs ht hc
  refine ⟨hok, ?_⟩
  intro j cam1 hj r c hr hcw
  rcases Nat.lt_or_ge j pre.length with hlt | hge
  · rw [List.getElem?_append_left hlt] at hj
    have hne : pre ≠ [] := by
      intro h0
      rw [h0] at hlt
      exact Nat.not_lt_zero _ hlt
    rw [hold j r c hlt hr hcw (hw (Or.inr hne))]
    exact hp j cam1 hj r c hr hcw
  · rw [List.getElem?_append_right hge] at hj
    have hj0 : j - pre.length = 0 := by
      rcases Nat.eq_zero_or_pos (j - pre.length) with h0 | hpos
      · exact h0
      · rw [List.getElem?_eq_none (by simp only [List.length_singleton]; omega)] at hj
        cases hj
    rw [hj0] at hj
    have hcam : cam = cam1 := by simpa using hj
    have hjl : j = pre.length := by omega
    subst hcam
    subst hjl
    exact hnew r c hr hcw

theorem ptrImage_dims (env : Env) (img : CvImage) :
    (ptrImage env img).image.rows = img.image.rows ∧
    (ptrImage env img).image.cols = img.image.cols := by
  unfold ptrImage
  split
  · exact ⟨rfl, rfl⟩
  · exact ⟨rfl, rfl⟩

theorem loopBody_inv {env : Env} {w h n : Nat} {pre : List (CvImage × CvImage × CameraInfo)}
    {rgbI depthI : CvImage} {info : CameraInfo} {s s1 : Locals}
    (hinv : Inv env h w n pre s)
    (hb : loopBody env w h n pre.length rgbI depthI info s = .ok s1) :
    Inv env h w n (pre ++ [(rgbI, depthI, info)]) s1 := by
  obtain ⟨_, hrgb, hdepth, _, _, _, ht1, hc1, ht2, hc2⟩ := loopBody_ok hb
  obtain ⟨i1, i2, i3, i4⟩ := hinv
  have hd := ptrImage_dims env rgbI
  have r1 := placed_step (fun cam => (ptrImage env cam.1).image)
    (rgbI, depthI, info) i1 i3 ⟨hd.1.trans hrgb.2, hd.2.trans hrgb.1⟩ ht1 hc1
  have r2 := placed_step (fun cam => cam.2.1.image)
    (rgbI, depthI, info) i2 i4 ⟨hdepth.2, hdepth.1⟩ ht2 hc2
  exact ⟨fun _ => r1.1, fun _ => r2.1, r1.2, r2.2⟩

theorem loop_inv {env : Env} {w h n : Nat} :
    ∀ (cams pre : List (CvImage × CvImage × CameraInfo)) (s s1 : Locals),
      Inv env h w n pre s → loop env w h n pre.length cams s = .ok s1 →
      Inv env h w n (pre ++ cams) s1 := by
  intro cams
  induction cams with
  | nil =>
    intro pre s s1 hinv hl
    simp only [loop] at hl
    cases hl
    simpa using hinv
  | cons cam rest ih =>
    intro pre s s1 hinv hl
    obtain ⟨rgbI, depthI, info⟩ := cam
    simp only [loop] at hl
    split at hl
    · cases hl
    · rename_i s2 hb
      have h2 := loopBody_inv hinv hb
      have h3 := ih (pre ++ [(rgbI, depthI, info)]) s2 s1 h2 (by simpa using hl)
      simpa using h3

/-! ## Dispatched groups -/

theorem loopBody_error {env : Env} {w h n i : Nat} {rgbI depthI : CvImage} {info : CameraInfo}
    {s : Locals} {o : Outcome} (hb : loopBody env w h n i rgbI depthI info s = .error o) :
    o.dispatched = false := by
  unfold loopBody at hb
  split at hb
  · cases hb; rfl
  split at hb
  · cases hb; rfl
  split at hb
  · cases hb; rfl
  simp only at hb
  split at hb
  · cases hb; rfl
  split at hb
  · split at hb
    · cases hb; rfl
    · split at hb
      · split at hb
        · cases hb; rfl
        · cases hb
      · cases hb; rfl
  · cases hb; rfl

theorem loop_error {env : Env} {w h n : Nat} :
    ∀ (cams : List (CvImage × CvImage × CameraInfo)) (i : Nat) (s : Locals) (o : Outcome),
      loop env w h n i cams s = .error o → o.dispatched = false := by
  intro cams
  induction cams with
  | nil =>
    intro i s o hl
    simp only [loop] at hl
    cases hl
  | cons cam rest ih =>
    intro i s o hl
    obtain ⟨rgbI, depthI, info⟩ := cam
    simp only [loop] at hl
    split at hl
    · rename_i o1 hb
      cases hl
      exact loopBody_error hb
    · exact ih _ _ _ hl

/-- A dispatching call has a first camera, vectors of one size, and a loop that runs to
its end; the frame is built from the locals the loop leaves. -/
theorem commonCallback_dispatched {env : Env} {rgbImages depthImages : List CvImage}
    {cameraInfos : List CameraInfo}
    (hd : (commonCallback env rgbImages depthImages cameraInfos).dispatched = true) :
    ∃ first s, rgbImages[0]? = some first ∧
      rgbImages.length = depthImages.length ∧ rgbImages.length = cameraInfos.length ∧
      loop env first.image.cols first.image.rows rgbImages.length 0
        (rgbImages.zip (depthImages.zip cameraInfos)) Locals.init = .ok s ∧
      commonCallback env rgbImages depthImages cameraInfos =
        .processData ⟨s.rgb, s.depth, s.cameraModels, 0, env.timestampFromROS s.higherStamp⟩
          s.higherStamp := by
  unfold commonCallback at hd ⊢
  cases rgbImages with
  | nil => simp [Outcome.dispatched] at hd
  | cons first tail =>
    simp only at hd ⊢
    split at hd
    · rename_i hlen
      rw [if_pos hlen]
      split at hd
      · rename_i o ho
        rw [loop_error _ _ _ _ ho] at hd
        cases hd
      · rename_i s hs
        exact ⟨first, s, by simp, hlen.1, hlen.2, hs, by simp only [hs]⟩
    · simp [Outcome.dispatched] at hd

theorem zip_getElem? {rgbImages depthImages : List CvImage} {cameraInfos : List CameraInfo}
    {i : Nat} {rgbI depthI : CvImage} {info : CameraInfo}
    (h1 : rgbImages[i]? = some rgbI) (h2 : depthImages[i]? = some depthI)
    (h3 : cameraInfos[i]? = some info) :
    (rgbImages.zip (depthImages.zip cameraInfos))[i]? = some (rgbI, depthI, info) := by
  rw [List.getElem?_zip_eq_some]
  refine ⟨h1, ?_⟩
  rw [List.getElem?_zip_eq_some]
  exact ⟨h2, h3⟩

theorem inv_init (env : Env) (h w n : Nat) : Inv env h w n [] Locals.init := by
  refine ⟨?_, ?_, ?_, ?_⟩
  · intro hx
    rcases hx with hx | hx
    · simp [Locals.init, Mat.default, Mat.empty] at hx
    · exact absurd rfl hx
  · intro hx
    rcases hx with hx | hx
    · simp [Locals.init, Mat.default, Mat.empty] at hx
    · exact absurd rfl hx
  · intro j cam hj
    simp at hj
  · intro j cam hj
    simp at hj

/-! ## C1: layout of the composite frame -/

/-- C1. When `commonCallback` dispatches a group of N cameras, with w and h the width
and height of the first color image, both canvases of the frame have h rows and N*w
columns, and for every camera i the pixel (r, i*w + c) of the color canvas is the pixel
(r, c) of the normalized color image of camera i and the pixel (r, i*w + c) of the depth
canvas is the pixel (r, c) of the depth image of camera i. -/
theorem composite_layout (env : Env) (rgbImages depthImages : List CvImage)
    (cameraInfos : List CameraInfo)
    (hd : (commonCallback env rgbImages depthImages cameraInfos).dispatched = true) :
    ∃ data stamp first,
      commonCallback env rgbImages depthImages cameraInfos = .processData data stamp ∧
      rgbImages[0]? = some first ∧
      data.rgb.rows = first.image.rows ∧
      data.rgb.cols = rgbImages.length * first.image.cols ∧
      data.depth.rows = first.image.rows ∧
      data.depth.cols = rgbImages.length * first.image.cols ∧
      ∀ i rgbI depthI, rgbImages[i]? = some rgbI → depthImages[i]? = some depthI →
        ∀ r c, r < first.image.rows → c < first.image.cols →
          data.rgb.data r (i * first.image.cols + c) = (ptrImage env rgbI).image.data r c ∧
          data.depth.data r (i * first.image.cols + c) = depthI.image.data r c := by
  obtain ⟨first, s, hfirst, hl1, hl2, hloop, hcc⟩ := commonCallback_dispatched hd
  have hinv := loop_inv _ [] Locals.init s (inv_init env _ _ _) hloop
  simp only [List.nil_append] at hinv
  obtain ⟨i1, i2, i3, i4⟩ := hinv
  have hne : rgbImages.zip (depthImages.zip cameraInfos) ≠ [] := by
    intro h0
    have hlen := congrArg List.length h0
    simp only [List.length_zip, List.length_nil] at hlen
    have : 0 < rgbImages.length := by
      rcases List.getElem?_eq_some.mp hfirst with ⟨hlt, _⟩
      exact hlt
    omega
  have c1 := i1 (Or.inr hne)
  have c2 := i2 (Or.inr hne)
  refine ⟨_, _, first, hcc, hfirst, c1.1, ?_, c2.1, ?_, ?_⟩
  · rw [c1.2, Nat.mul_comm]
  · rw [c2.2, Nat.mul_comm]
  · intro i rgbI depthI hr hdp r c hrr hcc1
    have hi : i < cameraInfos.length := by
      rcases List.getElem?_eq_some.mp hr with ⟨hlt, _⟩
      omega
    have hz := zip_getElem? hr hdp (List.getElem?_eq_getElem hi)
    exact ⟨i3 i _ hz r c hrr hcc1, i4 i _ hz r c hrr hcc1⟩

/-- The sample group of two cameras is dispatched and laid out as C1 states. -/
theorem composite_layout_witness :
    (commonCallback sampleEnv sampleRgb sampleDepth sampleInfos).dispatched = true ∧
    ∃ data stamp first,
      commonCallback sampleEnv sampleRgb sampleDepth sampleInfos = .processData data stamp ∧
      sampleRgb[0]? = some first ∧
      data.rgb.rows = first.image.rows ∧
      data.rgb.cols = sampleRgb.length * first.image.cols ∧
      data.depth.rows = first.image.rows ∧
      data.depth.cols = sampleRgb.length * first.image.cols ∧
      ∀ i rgbI depthI, sampleRgb[i]? = some rgbI → sampleDepth[i]? = some depthI →
        ∀ r c, r < first.image.rows → c < first.image.cols →
          data.rgb.data r (i * first.image.cols + c) =
            (ptrImage sampleEnv rgbI).image.data r c ∧
          data.depth.data r (i * first.image.cols + c) = depthI.image.data r c :=
  ⟨by decide, composite_layout sampleEnv sampleRgb sampleDepth sampleInfos (by decide)⟩

/-! ## C2: the stamp of the frame -/

theorem cameraStamp_eq_max (rgbI depthI : CvImage) :
    cameraStamp rgbI depthI = max rgbI.header.stamp depthI.header.stamp := by
  unfold cameraStamp
  split <;> omega

theorem loop_stamp_pos {env : Env} {w h n : Nat} :
    ∀ (cams : List (CvImage × CvImage × CameraInfo)) (i : Nat) (s s1 : Locals),
      0 < i → loop env w h n i cams s = .ok s1 →
      s1.higherStamp = max s.higherStamp
        ((cams.map (fun cam => max cam.1.header.stamp cam.2.1.header.stamp)).foldr max 0) := by
  intro cams
  induction cams with
  | nil =>
    intro i s s1 _ hl
    simp only [loop] at hl
    cases hl
    simp
  | cons cam rest ih =>
    intro i s s1 hi hl
    obtain ⟨rgbI, depthI, info⟩ := cam
    simp only [loop] at hl
    split at hl
    · cases hl
    · rename_i s2 hb
      obtain ⟨_, _, _, _, hst, _⟩ := loopBody_ok hb
      rw [ih (i + 1) s2 s1 (Nat.succ_pos i) hl, hst, if_neg (by omega), cameraStamp_eq_max]
      simp only [List.map_cons, List.foldr_cons]
      split <;> omega

theorem loop_stamp_zero {env : Env} {w h n : Nat}
    (cam : CvImage × CvImage × CameraInfo) (rest : List (CvImage × CvImage × CameraInfo))
    (s s1 : Locals) (hl : loop env w h n 0 (cam :: rest) s = .ok s1) :
    s1.higherStamp =
      (((cam :: rest).map (fun cam => max cam.1.header.stamp cam.2.1.header.stamp)).foldr
        max 0) := by
  obtain ⟨rgbI, depthI, info⟩ := cam
  simp only [loop] at hl
  split at hl
  · cases hl
  · rename_i s2 hb
    obtain ⟨_, _, _, _, hst, _⟩ := loopBody_ok hb
    rw [loop_stamp_pos rest 1 s2 s1 Nat.one_pos hl, hst, if_pos rfl, cameraStamp_eq_max]
    simp only [List.map_cons, List.foldr_cons]

theorem zip3_stamps :
    ∀ (a b : List CvImage) (c : List CameraInfo), a.length = b.length → a.length = c.length →
      (a.zip (b.zip c)).map (fun cam => max cam.1.header.stamp cam.2.1.header.stamp) =
        (a.zip b).map (fun p => max p.1.header.stamp p.2.header.stamp) := by
  intro a
  induction a with
  | nil => intro b c _ _; simp
  | cons x xs ih =>
    intro b c hb hc
    cases b with
    | nil => simp at hb
    | cons y ys =>
      cases c with
      | nil => simp at hc
      | cons z zs =>
        simp only [List.zip_cons_cons, List.map_cons]
        rw [ih ys zs (by simpa using hb) (by simpa using hc)]

theorem groupStamp_ge :
    ∀ (a b : List CvImage), a.length = b.length →
      (∀ img ∈ a, img.header.stamp ≤ groupStamp a b) ∧
      (∀ img ∈ b, img.header.stamp ≤ groupStamp a b) := by
  intro a
  induction a with
  | nil =>
    intro b hb
    cases b with
    | nil => simp
    | cons y ys => simp at hb
  | cons x xs ih =>
    intro b hb
    cases b with
    | nil => simp at hb
    | cons y ys =>
      have hi := ih ys (by simpa using hb)
      have hg : groupStamp (x :: xs) (y :: ys) =
          max (max x.header.stamp y.header.stamp) (groupStamp xs ys) := by
        simp [groupStamp]
      rw [hg]
      constructor
      · intro img him
        rcases List.mem_cons.mp him with he | hm
        · subst he; omega
        · have := hi.1 img hm; omega
      · intro img him
        rcases List.mem_cons.mp him with he | hm
        · subst he; omega
        · have := hi.2 img hm; omega

theorem groupStamp_attained :
    ∀ (a b : List CvImage), a ≠ [] → a.length = b.length →
      ∃ img, (img ∈ a ∨ img ∈ b) ∧ img.header.stamp = groupStamp a b := by
  intro a
  induction a with
  | nil => intro b hne; exact absurd rfl hne
  | cons x xs ih =>
    intro b _ hb
    cases b with
    | nil => simp at hb
    | cons y ys =>
      have hg : groupStamp (x :: xs) (y :: ys) =
          max (max x.header.stamp y.header.stamp) (groupStamp xs ys) := by
        simp [groupStamp]
      rw [hg]
      by_cases hxs : xs = []
      · subst hxs
        have hys : ys = [] := by
          cases ys with
          | nil => rfl
          | cons _ _ => simp at hb
        subst hys
        have h0 : groupStamp [] [] = 0 := by simp [groupStamp]
        rw [h0]
        rcases Nat.le_total x.header.stamp y.header.stamp with hle | hle
        · exact ⟨y, Or.inr (by simp), by omega⟩
        · exact ⟨x, Or.inl (by simp), by omega⟩
      · obtain ⟨img, him, hst⟩ := ih ys hxs (by simpa using hb)
        rcases Nat.le_total (max x.header.stamp y.header.stamp) (groupStamp xs ys) with hle | hle
        · refine ⟨img, ?_, by omega⟩
          rcases him with hm | hm
          · exact Or.inl (List.mem_cons_of_mem _ hm)
          · exact Or.inr (List.mem_cons_of_mem _ hm)
        · rcases Nat.le_total x.header.stamp y.header.stamp with hxy | hxy
          · exact ⟨y, Or.inr (by simp), by omega⟩
          · exact ⟨x, Or.inl (by simp), by omega⟩

/-- C2. When `commonCallback` dispatches a group, the stamp passed to `processData` is
the maximum over the cameras of the later of the color and depth stamps, the frame
stores the conversion of that stamp, no color or depth image of the group has a later
stamp, and some image of the group has exactly that stamp. -/
theorem frame_stamp_is_max (env : Env) (rgbImages depthImages : List CvImage)
    (cameraInfos : List CameraInfo)
    (hd : (commonCallback env rgbImages depthImages cameraInfos).dispatched = true) :
    ∃ data stamp,
      commonCallback env rgbImages depthImages cameraInfos = .processData data stamp ∧
      stamp = groupStamp rgbImages depthImages ∧
      data.stamp = env.timestampFromROS (groupStamp rgbImages depthImages) ∧
      (∀ img ∈ rgbImages, img.header.stamp ≤ stamp) ∧
      (∀ img ∈ depthImages, img.header.stamp ≤ stamp) ∧
      ∃ img, (img ∈ rgbImages ∨ img ∈ depthImages) ∧ img.header.stamp = stamp := by
  obtain ⟨first, s, hfirst, hl1, hl2, hloop, hcc⟩ := commonCallback_dispatched hd
  have hne : rgbImages ≠ [] := by
    intro h0
    rw [h0] at hfirst
    simp at hfirst
  have hst : s.higherStamp = groupStamp rgbImages depthImages := by
    cases hz : rgbImages.zip (depthImages.zip cameraInfos) with
    | nil =>
      exfalso
      have hlen := congrArg List.length hz
      simp only [List.length_zip, List.length_nil] at hlen
      have : 0 < rgbImages.length := List.length_pos.mpr hne
      omega
    | cons cam rest =>
      rw [hz] at hloop
      rw [loop_stamp_zero cam rest _ s hloop, ← hz, zip3_stamps _ _ _ hl1 hl2]
      rfl
  have hge := groupStamp_ge rgbImages depthImages hl1
  refine ⟨_, _, hcc, hst, ?_, ?_, ?_, ?_⟩
  · simp only [hst]
  · rw [hst]; exact hge.1
  · rw [hst]; exact hge.2
  · rw [hst]; exact groupStamp_attained rgbImages depthImages hne hl1

/-- The sample group of two cameras is dispatched with the stamp C2 states. -/
theorem frame_stamp_is_max_witness :
    (commonCallback sampleEnv sampleRgb sampleDepth sampleInfos).dispatched = true ∧
    ∃ data stamp,
      commonCallback sampleEnv sampleRgb sampleDepth sampleInfos = .processData data stamp ∧
      stamp = groupStamp sampleRgb sampleDepth ∧
      data.stamp = sampleEnv.timestampFromROS (groupStamp sampleRgb sampleDepth) ∧
      (∀ img ∈ sampleRgb, img.header.stamp ≤ stamp) ∧
      (∀ img ∈ sampleDepth, img.header.stamp ≤ stamp) ∧
      ∃ img, (img ∈ sampleRgb ∨ img ∈ sampleDepth) ∧ img.header.stamp = stamp :=
  ⟨by decide, frame_stamp_is_max sampleEnv sampleRgb sampleDepth sampleInfos (by decide)⟩

/-! ## C7: the camera models of the frame -/

theorem loop_models {env : Env} {w h n : Nat} :
    ∀ (cams : List (CvImage × CvImage × CameraInfo)) (i : Nat) (s s1 : Locals),
      loop env w h n i cams s = .ok s1 →
      s1.cameraModels = s.cameraModels ++ cams.map (fun cam =>
        cameraModelFromROS cam.2.2
          (env.getTransform env.frameId cam.1.header.frame_id
            (max cam.1.header.stamp cam.2.1.header.stamp))) := by
  intro cams
  induction cams with
  | nil =>
    intro i s s1 hl
    simp only [loop] at hl
    cases hl
    simp
  | cons cam rest ih =>
    intro i s s1 hl
    obtain ⟨rgbI, depthI, info⟩ := cam
    simp only [loop] at hl
    split at hl
    · cases hl
    · rename_i s2 hb
      obtain ⟨_, _, _, _, _, hm, _⟩ := loopBody_ok hb
      rw [ih (i + 1) s2 s1 hl, hm, cameraStamp_eq_max]
      simp

/-- C7. When `commonCallback` dispatches a group of N cameras, the frame carries exactly
N camera models, and model i is built from `cameraInfos[i]` and the transform looked up
from the base frame to the frame id of the color image of camera i at the later of the
color and depth stamps of camera i. -/
theorem camera_models_in_order (env : Env) (rgbImages depthImages : List CvImage)
    (cameraInfos : List CameraInfo)
    (hd : (commonCallback env rgbImages depthImages cameraInfos).dispatched = true) :
    ∃ data stamp,
      commonCallback env rgbImages depthImages cameraInfos = .processData data stamp ∧
      data.cameraModels.length = rgbImages.length ∧
      ∀ (i : Nat) (rgbI depthI : CvImage) (info : CameraInfo), rgbImages[i]? = some rgbI → depthImages[i]? = some depthI →
        cameraInfos[i]? = some info →
        data.cameraModels[i]? = some (cameraModelFromROS info
          (env.getTransform env.frameId rgbI.header.frame_id
            (max rgbI.header.stamp depthI.header.stamp))) := by
  obtain ⟨first, s, _, hl1, hl2, hloop, hcc⟩ := commonCallback_dispatched hd
  have hm := loop_models _ _ _ _ hloop
  simp only [Locals.init, List.nil_append] at hm
  refine ⟨_, _, hcc, ?_, ?_⟩
  · simp only [hm, List.length_map, List.length_zip]
    omega
  · intro i rgbI depthI info h1 h2 h3
    simp only [hm, List.getElem?_map, zip_getElem? h1 h2 h3, Option.map_some']

/-- The sample group of two cameras is dispatched with the camera models C7 states. -/
theorem camera_models_in_order_witness :
    (commonCallback sampleEnv sampleRgb sampleDepth sampleInfos).dispatched = true ∧
    ∃ data stamp,
      commonCallback sampleEnv sampleRgb sampleDepth sampleInfos = .processData data stamp ∧
      data.cameraModels.length = sampleRgb.length ∧
      ∀ (i : Nat) (rgbI depthI : CvImage) (info : CameraInfo), sampleRgb[i]? = some rgbI → sampleDepth[i]? = some depthI →
        sampleInfos[i]? = some info →
        data.cameraModels[i]? = some (cameraModelFromROS info
          (sampleEnv.getTransform sampleEnv.frameId rgbI.header.frame_id
            (max rgbI.header.stamp depthI.header.stamp))) :=
  ⟨by decide, camera_models_in_order sampleEnv sampleRgb sampleDepth sampleInfos (by decide)⟩

/-! ## Groups that are not dispatched -/

theorem unsupportedEncoding_false (rgbI depthI : CvImage) :
    unsupportedEncoding rgbI depthI = false ↔
      rgbI.encoding ∈ colorEncodings ∧ depthI.encoding ∈ depthEncodings := by
  simp [unsupportedEncoding, colorEncodings, depthEncodings]
  tauto

/-- Every camera of a loop that runs to its end has passed all the checks of the body. -/
theorem loop_ok_all {env : Env} {w h n : Nat} :
    ∀ (cams : List (CvImage × CvImage × CameraInfo)) (i : Nat) (s s1 : Locals),
      loop env w h n i cams s = .ok s1 →
      ∀ cam ∈ cams,
        (cam.1.encoding ∈ colorEncodings ∧ cam.2.1.encoding ∈ depthEncodings) ∧
        (cam.1.image.cols = w ∧ cam.1.image.rows = h) ∧
        (cam.2.1.image.cols = w ∧ cam.2.1.image.rows = h) ∧
        (env.getTransform env.frameId cam.1.header.frame_id
          (max cam.1.header.stamp cam.2.1.header.stamp)).isNull = false := by
  intro cams
  induction cams with
  | nil =>
    intro i s s1 _ cam hc
    cases hc
  | cons cam0 rest ih =>
    intro i s s1 hl cam hc
    obtain ⟨rgbI, depthI, info⟩ := cam0
    simp only [loop] at hl
    split at hl
    · cases hl
    · rename_i s2 hb
      rcases List.mem_cons.mp hc with he | hm
      · subst he
        obtain ⟨h1, h2, h3, h4, _⟩ := loopBody_ok hb
        rw [cameraStamp_eq_max] at h4
        exact ⟨(unsupportedEncoding_false _ _).mp h1, h2, h3, h4⟩
      · exact ih (i + 1) s2 s1 hl cam hm

/-- A completed iteration leaves canvases of the composite size. -/
theorem loopBody_canvas {env : Env} {w h n i : Nat} {rgbI depthI : CvImage}
    {info : CameraInfo} {s s1 : Locals}
    (hw1 : CanvasWeak h w n s.rgb) (hw2 : CanvasWeak h w n s.depth)
    (hb : loopBody env w h n i rgbI depthI info s = .ok s1) :
    CanvasOk h w n s1.rgb ∧ CanvasOk h w n s1.depth := by
  obtain ⟨_, hrgb, hdepth, _, _, _, ht1, hc1, ht2, hc2⟩ := loopBody_ok hb
  have hd := ptrImage_dims env rgbI
  exact ⟨(canvas_step hw1 ⟨hd.1.trans hrgb.2, hd.2.trans hrgb.1⟩ ht1 hc1).1,
    (canvas_step hw2 ⟨hdepth.2, hdepth.1⟩ ht2 hc2).1⟩

theorem mem_zip_of_mem_rgb {rgbImages depthImages : List CvImage}
    {cameraInfos : List CameraInfo} (hl1 : rgbImages.length = depthImages.length)
    (hl2 : rgbImages.length = cameraInfos.length) {img : CvImage} (hm : img ∈ rgbImages) :
    ∃ cam ∈ rgbImages.zip (depthImages.zip cameraInfos), cam.1 = img := by
  obtain ⟨i, hi⟩ := List.getElem?_of_mem hm
  have hlt : i < rgbImages.length := (List.getElem?_eq_some.mp hi).1
  have h2 : i < depthImages.length := by omega
  have h3 : i < cameraInfos.length := by omega
  exact ⟨_, List.getElem?_mem
    (zip_getElem? hi (List.getElem?_eq_getElem h2) (List.getElem?_eq_getElem h3)), rfl⟩

theorem mem_zip_of_mem_depth {rgbImages depthImages : List CvImage}
    {cameraInfos : List CameraInfo} (hl1 : rgbImages.length = depthImages.length)
    (hl2 : rgbImages.length = cameraInfos.length) {img : CvImage} (hm : img ∈ depthImages) :
    ∃ cam ∈ rgbImages.zip (depthImages.zip cameraInfos), cam.2.1 = img := by
  obtain ⟨i, hi⟩ := List.getElem?_of_mem hm
  have hlt : i < depthImages.length := (List.getElem?_eq_some.mp hi).1
  have h1 : i < rgbImages.length := by omega
  have h3 : i < cameraInfos.length := by omega
  exact ⟨_, List.getElem?_mem
    (zip_getElem? (List.getElem?_eq_getElem h1) hi (List.getElem?_eq_getElem h3)), rfl⟩

theorem mem_of_mem_zip {rgbImages depthImages : List CvImage}
    {cameraInfos : List CameraInfo} {cam : CvImage × CvImage × CameraInfo}
    (hm : cam ∈ rgbImages.zip (depthImages.zip cameraInfos)) :
    cam.1 ∈ rgbImages ∧ cam.2.1 ∈ depthImages := by
  obtain ⟨a, b, c⟩ := cam
  have h1 := List.of_mem_zip hm
  exact ⟨h1.1, (List.of_mem_zip h1.2).1⟩

/-- The call on a group (a first camera, three vectors of one size) is the loop over the
cameras, followed by the dispatch. -/
theorem commonCallback_eq {env : Env} {rgbImages depthImages : List CvImage}
    {cameraInfos : List CameraInfo} {first : CvImage}
    (hfirst : rgbImages[0]? = some first)
    (hl1 : rgbImages.length = depthImages.length)
    (hl2 : rgbImages.length = cameraInfos.length) :
    commonCallback env rgbImages depthImages cameraInfos =
      match loop env first.image.cols first.image.rows rgbImages.length 0
          (rgbImages.zip (depthImages.zip cameraInfos)) Locals.init with
      | .error o => o
      | .ok s =>
        .processData ⟨s.rgb, s.depth, s.cameraModels, 0, env.timestampFromROS s.higherStamp⟩
          s.higherStamp := by
  unfold commonCallback
  cases rgbImages with
  | nil => simp at hfirst
  | cons x xs =>
    have hx : x = first := by simpa using hfirst
    subst hx
    simp only
    rw [if_pos ⟨hl1, hl2⟩]

theorem canvasWeak_init (h w n : Nat) :
    CanvasWeak h w n Locals.init.rgb ∧ CanvasWeak h w n Locals.init.depth := by
  constructor <;> intro hx <;> simp [Locals.init, Mat.default, Mat.empty] at hx

theorem copyToRoi_type {src dst out : Mat} {x y w h : Nat}
    (hc : src.copyToRoi dst x y w h = some out) : out.type = dst.type := by
  unfold Mat.copyToRoi at hc
  split at hc
  · split at hc
    · cases hc; rfl
    · cases hc
  · cases hc

theorem initCanvas_type {canvas : Mat} (h w n : Nat) {t : Nat}
    (ht : canvas.empty = true ∨ canvas.type = t) : (initCanvas canvas h w n t).type = t := by
  unfold initCanvas
  split
  · rfl
  · rename_i he
    rcases ht with ht | ht
    · exact absurd ht he
    · exact ht

theorem ptrImage_type (env : Env) {img : CvImage} (_he : img.encoding ∈ colorEncodings)
    (hw : WellTyped img) : (ptrImage env img).image.type = CV_8UC1 := by
  unfold ptrImage
  split
  · rfl
  · rename_i hc
    have hc2 : img.encoding = TYPE_8UC1 ∨ img.encoding = MONO8 := by
      simp only [Bool.and_eq_true, bne_iff_ne, ne_eq, not_and, Decidable.not_not] at hc
      by_cases h1 : img.encoding = TYPE_8UC1
      · exact Or.inl h1
      · exact Or.inr (hc h1)
    unfold WellTyped at hw
    rcases hc2 with h1 | h1
    · rw [h1] at hw
      have : getCvType TYPE_8UC1 = some CV_8UC1 := by decide
      rw [this] at hw
      exact (Option.some.inj hw).symm
    · rw [h1] at hw
      have : getCvType MONO8 = some CV_8UC1 := by decide
      rw [this] at hw
      exact (Option.some.inj hw).symm

/-- An iteration completes when the camera passes the checks in the order of the body:
encodings, sizes, transform, and the types of the two canvases, and its images have
elements. -/
theorem loopBody_progress {env : Env} {w h n i : Nat} {rgbI depthI : CvImage}
    (info : CameraInfo) {s : Locals}
    (hpw : 0 < w) (hph : 0 < h) (hi : i < n)
    (henc : rgbI.encoding ∈ colorEncodings ∧ depthI.encoding ∈ depthEncodings)
    (hrgb : rgbI.image.cols = w ∧ rgbI.image.rows = h)
    (hdepth : depthI.image.cols = w ∧ depthI.image.rows = h)
    (hnull : (env.getTransform env.frameId rgbI.header.frame_id
      (max rgbI.header.stamp depthI.header.stamp)).isNull = false)
    (hw1 : CanvasWeak h w n s.rgb) (hw2 : CanvasWeak h w n s.depth)
    (ht1 : s.rgb.empty = true ∨ s.rgb.type = (ptrImage env rgbI).image.type)
    (ht2 : s.depth.empty = true ∨ s.depth.type = depthI.image.type) :
    ∃ s1, loopBody env w h n i rgbI depthI info s = .ok s1 := by
  have hroi : i * w + w ≤ w * n := by
    have := Nat.mul_le_mul_left w (Nat.succ_le_of_lt hi)
    rw [Nat.mul_succ, Nat.mul_comm w i] at this
    exact this
  have hu : ¬ unsupportedEncoding rgbI depthI = true := by
    rw [(unsupportedEncoding_false rgbI depthI).mpr henc]
    simp
  have hn : ¬ (env.getTransform env.frameId rgbI.header.frame_id
      (cameraStamp rgbI depthI)).isNull = true := by
    rw [cameraStamp_eq_max, hnull]
    simp
  have hok1 := initCanvas_ok (ptrImage env rgbI).image.type hw1
  have hok2 := initCanvas_ok depthI.image.type hw2
  have hd := ptrImage_dims env rgbI
  obtain ⟨out1, hout1⟩ := copyToRoi_inside (ptrImage env rgbI).image
    (initCanvas s.rgb h w n (ptrImage env rgbI).image.type)
    (x := i * w) (w := w) (h := h) (by rw [hok1.2]; exact hroi) (by rw [hok1.1])
    ⟨hd.1.trans hrgb.2, hd.2.trans hrgb.1⟩ hpw hph
  obtain ⟨out2, hout2⟩ := copyToRoi_inside depthI.image
    (initCanvas s.depth h w n depthI.image.type)
    (x := i * w) (w := w) (h := h) (by rw [hok2.2]; exact hroi) (by rw [hok2.1])
    ⟨hdepth.2, hdepth.1⟩ hpw hph
  unfold loopBody
  rw [if_neg hu, if_neg (not_not.mpr hrgb), if_neg (not_not.mpr hdepth)]
  simp only
  rw [if_neg hn, if_pos (initCanvas_type h w n ht1).symm, hout1]
  simp only
  rw [if_pos (initCanvas_type h w n ht2).symm, hout2]
  exact ⟨_, rfl⟩

/-- After a completed iteration each canvas has the type of the image written last. -/
theorem loopBody_types {env : Env} {w h n i : Nat} {rgbI depthI : CvImage}
    {info : CameraInfo} {s s1 : Locals}
    (hb : loopBody env w h n i rgbI depthI info s = .ok s1) :
    s1.rgb.type = (ptrImage env rgbI).image.type ∧ s1.depth.type = depthI.image.type := by
  obtain ⟨_, _, _, _, _, _, ht1, hc1, ht2, hc2⟩ := loopBody_ok hb
  exact ⟨(copyToRoi_type hc1).trans ht1.symm, (copyToRoi_type hc2).trans ht2.symm⟩

/-- The loop runs to its end over cameras that pass every check. -/
theorem loop_progress {env : Env} {w h n t1 t2 : Nat} (hpw : 0 < w) (hph : 0 < h) :
    ∀ (cams : List (CvImage × CvImage × CameraInfo)) (i : Nat) (s : Locals),
      i + cams.length ≤ n →
      (∀ cam ∈ cams,
        (cam.1.encoding ∈ colorEncodings ∧ cam.2.1.encoding ∈ depthEncodings) ∧
        (cam.1.image.cols = w ∧ cam.1.image.rows = h) ∧
        (cam.2.1.image.cols = w ∧ cam.2.1.image.rows = h) ∧
        (env.getTransform env.frameId cam.1.header.frame_id
          (max cam.1.header.stamp cam.2.1.header.stamp)).isNull = false ∧
        (ptrImage env cam.1).image.type = t1 ∧ cam.2.1.image.type = t2) →
      CanvasWeak h w n s.rgb → CanvasWeak h w n s.depth →
      (s.rgb.empty = true ∨ s.rgb.type = t1) → (s.depth.empty = true ∨ s.depth.type = t2) →
      ∃ s1, loop env w h n i cams s = .ok s1 := by
  intro cams
  induction cams with
  | nil =>
    intro i s _ _ _ _ _ _
    exact ⟨s, rfl⟩
  | cons cam rest ih =>
    intro i s hi hall hw1 hw2 ht1 ht2
    obtain ⟨rgbI, depthI, info⟩ := cam
    obtain ⟨henc, hrgb, hdepth, hnull, hp1, hp2⟩ :=
      hall (rgbI, depthI, info) (List.mem_cons_self _ _)
    simp only [List.length_cons] at hi
    simp only at hp1 hp2
    have hin : i < n := by omega
    obtain ⟨s2, hb⟩ := loopBody_progress info hpw hph hin henc hrgb hdepth hnull hw1 hw2
      (by rw [hp1]; exact ht1) (by rw [hp2]; exact ht2)
    have hc := loopBody_canvas hw1 hw2 hb
    have hty := loopBody_types hb
    obtain ⟨s1, hl⟩ := ih (i + 1) s2 (by omega)
      (fun cam hm => hall cam (List.mem_cons_of_mem _ hm))
      (fun _ => hc.1) (fun _ => hc.2)
      (Or.inr (hty.1.trans hp1)) (Or.inr (hty.2.trans hp2))
    exact ⟨s1, by simp only [loop, hb, hl]⟩

theorem pair_mem_of_mem_zip :
    ∀ (a b : List CvImage) (c : List CameraInfo) (cam : CvImage × CvImage × CameraInfo),
      cam ∈ a.zip (b.zip c) → (cam.1, cam.2.1) ∈ a.zip b := by
  intro a
  induction a with
  | nil => intro b c cam hm; simp at hm
  | cons x xs ih =>
    intro b c cam hm
    cases b with
    | nil => simp at hm
    | cons y ys =>
      cases c with
      | nil => simp at hm
      | cons z zs =>
        simp only [List.zip_cons_cons, List.mem_cons] at hm ⊢
        rcases hm with he | hm
        · subst he
          exact Or.inl rfl
        · exact Or.inr (ih ys zs cam hm)

/-- A group that passes every check is dispatched: supported encodings, color images of
the type of their encoding, images of the reference size with at least one row and one
column, transforms that resolve, and depth images of one pixel type. -/
theorem valid_group_dispatched {env : Env} {rgbImages depthImages : List CvImage}
    {cameraInfos : List CameraInfo} {first : CvImage}
    (hfirst : rgbImages[0]? = some first)
    (hl1 : rgbImages.length = depthImages.length)
    (hl2 : rgbImages.length = cameraInfos.length)
    (hcol : ∀ img ∈ rgbImages, img.encoding ∈ colorEncodings ∧ WellTyped img)
    (hdep : ∀ img ∈ depthImages, img.encoding ∈ depthEncodings)
    (hrgb : ∀ img ∈ rgbImages,
      img.image.cols = first.image.cols ∧ img.image.rows = first.image.rows)
    (hdepth : ∀ img ∈ depthImages,
      img.image.cols = first.image.cols ∧ img.image.rows = first.image.rows)
    (hcols : 0 < first.image.cols) (hrows : 0 < first.image.rows)
    (htf : ∀ p ∈ rgbImages.zip depthImages,
      (env.getTransform env.frameId p.1.header.frame_id
        (max p.1.header.stamp p.2.header.stamp)).isNull = false)
    (t : Nat) (htype : ∀ img ∈ depthImages, img.image.type = t) :
    (commonCallback env rgbImages depthImages cameraInfos).dispatched = true := by
  rw [commonCallback_eq hfirst hl1 hl2]
  obtain ⟨s1, hl⟩ := loop_progress hcols hrows
    (n := rgbImages.length) (rgbImages.zip (depthImages.zip cameraInfos))
    0 Locals.init (by simp only [List.length_zip]; omega)
    (fun cam hm =>
      ⟨⟨(hcol _ (mem_of_mem_zip hm).1).1, hdep _ (mem_of_mem_zip hm).2⟩,
        hrgb _ (mem_of_mem_zip hm).1, hdepth _ (mem_of_mem_zip hm).2,
        htf _ (pair_mem_of_mem_zip _ _ _ cam hm),
        ptrImage_type env (hcol _ (mem_of_mem_zip hm).1).1 (hcol _ (mem_of_mem_zip hm).1).2,
        htype _ (mem_of_mem_zip hm).2⟩)
    (canvasWeak_init _ _ _).1 (canvasWeak_init _ _ _).2
    (Or.inl (by simp [Locals.init, Mat.default, Mat.empty]))
    (Or.inl (by simp [Locals.init, Mat.default, Mat.empty]))
  rw [hl]
  rfl

/-! ## C10: the type of the color canvas -/

/-- An iteration leaves through the branch of the RGB type error only when the type of
the normalized color image differs from the type of the color canvas. -/
theorem loopBody_rgbTypeError {env : Env} {w h n i : Nat} {rgbI depthI : CvImage}
    {info : CameraInfo} {s : Locals} {o : Outcome}
    (hb : loopBody env w h n i rgbI depthI info s = .error o)
    (ho : o.rgbTypeError = true) :
    (ptrImage env rgbI).image.type ≠
      (initCanvas s.rgb h w n (ptrImage env rgbI).image.type).type := by
  unfold loopBody at hb
  split at hb
  · cases hb
    exact absurd ho (by decide)
  split at hb
  · cases hb; cases ho
  split at hb
  · cases hb; cases ho
  simp only at hb
  split at hb
  · cases hb; cases ho
  split at hb
  · split at hb
    · cases hb; cases ho
    · split at hb
      · split at hb
        · cases hb; cases ho
        · cases hb
      · cases hb
        exact absurd ho (by decide)
  · rename_i hne
    exact hne

theorem loop_no_rgbTypeError {env : Env} {w h n : Nat} :
    ∀ (cams : List (CvImage × CvImage × CameraInfo)) (i : Nat) (s : Locals) (o : Outcome),
      (∀ cam ∈ cams, (ptrImage env cam.1).image.type = CV_8UC1) →
      (s.rgb.empty = true ∨ s.rgb.type = CV_8UC1) →
      loop env w h n i cams s = .error o → o.rgbTypeError = false := by
  intro cams
  induction cams with
  | nil =>
    intro i s o _ _ hl
    simp only [loop] at hl
    cases hl
  | cons cam rest ih =>
    intro i s o hall ht hl
    obtain ⟨rgbI, depthI, info⟩ := cam
    have hp := hall (rgbI, depthI, info) (List.mem_cons_self _ _)
    simp only at hp
    simp only [loop] at hl
    split at hl
    · rename_i o1 hb
      cases hl
      cases hr : o.rgbTypeError with
      | false => rfl
      | true =>
        exfalso
        exact loopBody_rgbTypeError hb hr (initCanvas_type h w n (by rw [hp]; exact ht)).symm
    · rename_i s2 hb
      exact ih (i + 1) s2 o (fun cam hm => hall cam (List.mem_cons_of_mem _ hm))
        (Or.inr ((loopBody_types hb).1.trans hp)) hl

theorem loop_rgb_type {env : Env} {w h n t : Nat} :
    ∀ (cams : List (CvImage × CvImage × CameraInfo)) (i : Nat) (s s1 : Locals),
      cams ≠ [] → (∀ cam ∈ cams, (ptrImage env cam.1).image.type = t) →
      loop env w h n i cams s = .ok s1 → s1.rgb.type = t := by
  intro cams
  induction cams with
  | nil => intro i s s1 hne; exact absurd rfl hne
  | cons cam rest ih =>
    intro i s s1 _ hall hl
    obtain ⟨rgbI, depthI, info⟩ := cam
    have hp := hall (rgbI, depthI, info) (List.mem_cons_self _ _)
    simp only at hp
    simp only [loop] at hl
    split at hl
    · cases hl
    · rename_i s2 hb
      by_cases hr : rest = []
      · subst hr
        simp only [loop] at hl
        cases hl
        exact (loopBody_types hb).1.trans hp
      · exact ih (i + 1) s2 s1 hr (fun cam hm => hall cam (List.mem_cons_of_mem _ hm)) hl

/-- A call either fails `ROS_ASSERT` or is made on a group. -/
theorem commonCallback_cases (env : Env) (rgbImages depthImages : List CvImage)
    (cameraInfos : List CameraInfo) :
    (∃ c, commonCallback env rgbImages depthImages cameraInfos = .assertion c) ∨
    (∃ first, rgbImages[0]? = some first ∧ rgbImages.length = depthImages.length ∧
      rgbImages.length = cameraInfos.length) := by
  cases rgbImages with
  | nil => exact Or.inl ⟨_, rfl⟩
  | cons x xs =>
    by_cases hlen : (x :: xs).length = depthImages.length ∧
        (x :: xs).length = cameraInfos.length
    · exact Or.inr ⟨x, by simp, hlen.1, hlen.2⟩
    · refine Or.inl
        ⟨"rgbImages.size() == depthImages.size() && rgbImages.size() == cameraInfos.size()", ?_⟩
      unfold commonCallback
      simp only
      rw [if_neg hlen]

/-- C10. For every call whose color images all have an accepted encoding and the pixel
type of their encoding: every normalized color image is single-channel 8-bit, the call
never leaves through the branch "Some RGB images are not the same type!", the color
canvas of a dispatched frame is single-channel 8-bit, and the group is dispatched
whatever the mix of accepted color encodings when the other checks pass (accepted depth
encodings, images of the reference size with at least one row and one column,
transforms that resolve, depth images of one pixel type). -/
theorem color_canvas_single_channel (env : Env) (rgbImages depthImages : List CvImage)
    (cameraInfos : List CameraInfo)
    (hcol : ∀ img ∈ rgbImages, img.encoding ∈ colorEncodings ∧ WellTyped img) :
    (∀ img ∈ rgbImages, (ptrImage env img).image.type = CV_8UC1) ∧
    (commonCallback env rgbImages depthImages cameraInfos).rgbTypeError = false ∧
    (∀ data stamp,
      commonCallback env rgbImages depthImages cameraInfos = .processData data stamp →
      data.rgb.type = CV_8UC1) ∧
    (∀ first t, rgbImages[0]? = some first →
      rgbImages.length = depthImages.length → rgbImages.length = cameraInfos.length →
      (∀ img ∈ depthImages, img.encoding ∈ depthEncodings) →
      (∀ img ∈ rgbImages,
        img.image.cols = first.image.cols ∧ img.image.rows = first.image.rows) →
      (∀ img ∈ depthImages,
        img.image.cols = first.image.cols ∧ img.image.rows = first.image.rows) →
      0 < first.image.cols → 0 < first.image.rows →
      (∀ p ∈ rgbImages.zip depthImages,
        (env.getTransform env.frameId p.1.header.frame_id
          (max p.1.header.stamp p.2.header.stamp)).isNull = false) →
      (∀ img ∈ depthImages, img.image.type = t) →
      (commonCallback env rgbImages depthImages cameraInfos).dispatched = true) := by
  have hptr : ∀ img ∈ rgbImages, (ptrImage env img).image.type = CV_8UC1 :=
    fun img hm => ptrImage_type env (hcol img hm).1 (hcol img hm).2
  have hzip : ∀ cam ∈ rgbImages.zip (depthImages.zip cameraInfos),
      (ptrImage env cam.1).image.type = CV_8UC1 :=
    fun cam hm => hptr _ (mem_of_mem_zip hm).1
  refine ⟨hptr, ?_, ?_, ?_⟩
  · rcases commonCallback_cases env rgbImages depthImages cameraInfos with
      ⟨c, hc⟩ | ⟨first, hfirst, hl1, hl2⟩
    · rw [hc]; rfl
    · rw [commonCallback_eq hfirst hl1 hl2]
      split
      · rename_i o ho
        exact loop_no_rgbTypeError _ _ _ _ hzip
          (Or.inl (by simp [Locals.init, Mat.default, Mat.empty])) ho
      · rfl
  · intro data stamp hcc
    have hd : (commonCallback env rgbImages depthImages cameraInfos).dispatched = true := by
      rw [hcc]; rfl
    obtain ⟨first, s, hfirst, hl1, hl2, hloop, hcc2⟩ := commonCallback_dispatched hd
    rw [hcc2] at hcc
    have hdata : s.rgb = data.rgb := by
      injection hcc with h1 _
      rw [← h1]
    rw [← hdata]
    apply loop_rgb_type _ _ _ _ ?_ hzip hloop
    intro h0
    have hlen := congrArg List.length h0
    simp only [List.length_zip, List.length_nil] at hlen
    have : 0 < rgbImages.length := (List.getElem?_eq_some.mp hfirst).1
    omega
  · intro first t hfirst hl1 hl2 hdep hrgb hdepth hcols hrows htf htype
    exact valid_group_dispatched hfirst hl1 hl2 hcol hdep hrgb hdepth hcols hrows htf t htype

/-- The sample group, whose color images are `mono8` and `rgb8`, is dispatched with a
single-channel 8-bit color canvas. -/
theorem color_canvas_single_channel_witness :
    (∀ img ∈ sampleRgb, img.encoding ∈ colorEncodings ∧ WellTyped img) ∧
    (∀ img ∈ sampleRgb, (ptrImage sampleEnv img).image.type = CV_8UC1) ∧
    (commonCallback sampleEnv sampleRgb sampleDepth sampleInfos).rgbTypeError = false ∧
    (∀ data stamp,
      commonCallback sampleEnv sampleRgb sampleDepth sampleInfos = .processData data stamp →
      data.rgb.type = CV_8UC1) ∧
    (commonCallback sampleEnv sampleRgb sampleDepth sampleInfos).dispatched = true :=
  have hw := color_canvas_single_channel sampleEnv sampleRgb sampleDepth sampleInfos
    (by decide)
  ⟨by decide, hw.1, hw.2.1, hw.2.2.1,
    hw.2.2.2 (sampleImage 5 "cam0" "mono8" 2 3 CV_8UC1 100) CV_16UC1 rfl rfl rfl
      (by decide) (by decide) (by decide) (by decide) (by decide) (by decide) (by decide)⟩

/-! ## C6: depth images of different pixel types -/

/-- A group of two cameras whose images have no rows and no columns and whose first
camera passes the checks of the encodings, the sizes and the transform: the copy of the
first color image into the canvas raises, so no frame is dispatched and the call does
not return normally. -/
theorem group_without_elements_raises :
    (commonCallback sampleEnv emptyRgb emptyDepth sampleInfos).raised = true ∧
    (commonCallback sampleEnv emptyRgb emptyDepth sampleInfos).dispatched = false ∧
    (commonCallback sampleEnv emptyRgb emptyDepth sampleInfos).abandoned = false := by
  decide

/-! ## C4: images of different sizes -/

/-- An iteration for a camera with supported encodings and an image that has not the
reference size fails a `UASSERT_MSG`. -/
theorem loopBody_asserts (env : Env) {w h : Nat} (n i : Nat) {rgbI depthI : CvImage}
    (info : CameraInfo) (s : Locals)
    (henc : rgbI.encoding ∈ colorEncodings ∧ depthI.encoding ∈ depthEncodings)
    (hmis : ¬ ((rgbI.image.cols = w ∧ rgbI.image.rows = h) ∧
      (depthI.image.cols = w ∧ depthI.image.rows = h))) :
    ∃ c, loopBody env w h n i rgbI depthI info s = .error (.assertion c) := by
  have hu : ¬ unsupportedEncoding rgbI depthI = true := by
    rw [(unsupportedEncoding_false rgbI depthI).mpr henc]
    simp
  unfold loopBody
  rw [if_neg hu]
  by_cases h1 : rgbI.image.cols = w ∧ rgbI.image.rows = h
  · have h2 : ¬ (depthI.image.cols = w ∧ depthI.image.rows = h) := fun h2 => hmis ⟨h1, h2⟩
    rw [if_neg (not_not.mpr h1), if_pos h2]
    exact ⟨_, rfl⟩
  · rw [if_pos h1]
    exact ⟨_, rfl⟩

/-- The loop over cameras that pass every check but that of the size fails a
`UASSERT_MSG` at the first camera with an image that has not the reference size. -/
theorem loop_asserts {env : Env} {w h n t1 t2 : Nat} (hpw : 0 < w) (hph : 0 < h) :
    ∀ (cams : List (CvImage × CvImage × CameraInfo)) (i : Nat) (s : Locals),
      i + cams.length ≤ n →
      (∀ cam ∈ cams,
        (cam.1.encoding ∈ colorEncodings ∧ cam.2.1.encoding ∈ depthEncodings) ∧
        (env.getTransform env.frameId cam.1.header.frame_id
          (max cam.1.header.stamp cam.2.1.header.stamp)).isNull = false ∧
        (ptrImage env cam.1).image.type = t1 ∧ cam.2.1.image.type = t2) →
      (∃ cam ∈ cams, ¬ ((cam.1.image.cols = w ∧ cam.1.image.rows = h) ∧
        (cam.2.1.image.cols = w ∧ cam.2.1.image.rows = h))) →
      CanvasWeak h w n s.rgb → CanvasWeak h w n s.depth →
      (s.rgb.empty = true ∨ s.rgb.type = t1) → (s.depth.empty = true ∨ s.depth.type = t2) →
      ∃ c, loop env w h n i cams s = .error (.assertion c) := by
  intro cams
  induction cams with
  | nil =>
    intro i s _ _ hmis
    obtain ⟨cam, hm, _⟩ := hmis
    cases hm
  | cons cam rest ih =>
    intro i s hi hall hmis hw1 hw2 ht1 ht2
    obtain ⟨rgbI, depthI, info⟩ := cam
    obtain ⟨henc, hnull, hp1, hp2⟩ := hall (rgbI, depthI, info) (List.mem_cons_self _ _)
    simp only [List.length_cons] at hi
    simp only at hp1 hp2
    by_cases hd : (rgbI.image.cols = w ∧ rgbI.image.rows = h) ∧
        (depthI.image.cols = w ∧ depthI.image.rows = h)
    · have hin : i < n := by omega
      obtain ⟨s2, hb⟩ := loopBody_progress info hpw hph hin henc hd.1 hd.2 hnull hw1 hw2
        (by rw [hp1]; exact ht1) (by rw [hp2]; exact ht2)
      have hc := loopBody_canvas hw1 hw2 hb
      have hty := loopBody_types hb
      have hmis2 : ∃ cam ∈ rest, ¬ ((cam.1.image.cols = w ∧ cam.1.image.rows = h) ∧
          (cam.2.1.image.cols = w ∧ cam.2.1.image.rows = h)) := by
        obtain ⟨cam, hm, hx⟩ := hmis
        rcases List.mem_cons.mp hm with he | hm1
        · subst he
          exact absurd hd hx
        · exact ⟨cam, hm1, hx⟩
      obtain ⟨c, hl⟩ := ih (i + 1) s2 (by omega)
        (fun cam hm => hall cam (List.mem_cons_of_mem _ hm)) hmis2
        (fun _ => hc.1) (fun _ => hc.2)
        (Or.inr (hty.1.trans hp1)) (Or.inr (hty.2.trans hp2))
      exact ⟨c, by simp only [loop, hb, hl]⟩
    · obtain ⟨c, hb⟩ := loopBody_asserts env n i info s henc hd
      exact ⟨c, by simp only [loop, hb]⟩

/-- C4, as the code has it. For every group in which some color or depth image has a
width or height different from that of the first color image, `commonCallback`
dispatches no frame; and when the first color image has at least one row and one column,
all encodings are supported, the color images have the pixel type of their encoding,
every transform resolves and the depth images have one pixel type, the call does not
return normally: it fails the `UASSERT_MSG` on the size of the first such camera. -/
theorem dimension_mismatch_asserts (env : Env) (rgbImages depthImages : List CvImage)
    (cameraInfos : List CameraInfo) (first : CvImage)
    (hfirst : rgbImages[0]? = some first)
    (hl1 : rgbImages.length = depthImages.length)
    (hl2 : rgbImages.length = cameraInfos.length)
    (hmis : (∃ img ∈ rgbImages,
        ¬ (img.image.cols = first.image.cols ∧ img.image.rows = first.image.rows)) ∨
      (∃ img ∈ depthImages,
        ¬ (img.image.cols = first.image.cols ∧ img.image.rows = first.image.rows))) :
    (commonCallback env rgbImages depthImages cameraInfos).dispatched = false ∧
    (0 < first.image.cols → 0 < first.image.rows →
      (∀ img ∈ rgbImages, img.encoding ∈ colorEncodings ∧ WellTyped img) →
      (∀ img ∈ depthImages, img.encoding ∈ depthEncodings) →
      (∀ p ∈ rgbImages.zip depthImages,
        (env.getTransform env.frameId p.1.header.frame_id
          (max p.1.header.stamp p.2.header.stamp)).isNull = false) →
      ∀ t, (∀ img ∈ depthImages, img.image.type = t) →
      (commonCallback env rgbImages depthImages cameraInfos).asserted = true) := by
  have hzmis : ∃ cam ∈ rgbImages.zip (depthImages.zip cameraInfos),
      ¬ ((cam.1.image.cols = first.image.cols ∧ cam.1.image.rows = first.image.rows) ∧
        (cam.2.1.image.cols = first.image.cols ∧ cam.2.1.image.rows = first.image.rows)) := by
    rcases hmis with ⟨img, hm, hx⟩ | ⟨img, hm, hx⟩
    · obtain ⟨cam, hc, he⟩ := mem_zip_of_mem_rgb hl1 hl2 hm
      exact ⟨cam, hc, fun hd => hx (he ▸ hd.1)⟩
    · obtain ⟨cam, hc, he⟩ := mem_zip_of_mem_depth hl1 hl2 hm
      exact ⟨cam, hc, fun hd => hx (he ▸ hd.2)⟩
  constructor
  · cases hd : (commonCallback env rgbImages depthImages cameraInfos).dispatched with
    | false => rfl
    | true =>
      exfalso
      obtain ⟨first1, s, hfirst1, _, _, hloop, _⟩ := commonCallback_dispatched hd
      rw [hfirst] at hfirst1
      cases hfirst1
      obtain ⟨cam, hc, hx⟩ := hzmis
      have hall := loop_ok_all _ _ _ _ hloop cam hc
      exact hx ⟨hall.2.1, hall.2.2.1⟩
  · intro hcols hrows hcol hdep htf t htype
    rw [commonCallback_eq hfirst hl1 hl2]
    obtain ⟨c, hl⟩ := loop_asserts hcols hrows
      (n := rgbImages.length) (rgbImages.zip (depthImages.zip cameraInfos)) 0 Locals.init
      (by simp only [List.length_zip]; omega)
      (fun cam hm =>
        ⟨⟨(hcol _ (mem_of_mem_zip hm).1).1, hdep _ (mem_of_mem_zip hm).2⟩,
          htf _ (pair_mem_of_mem_zip _ _ _ cam hm),
          ptrImage_type env (hcol _ (mem_of_mem_zip hm).1).1 (hcol _ (mem_of_mem_zip hm).1).2,
          htype _ (mem_of_mem_zip hm).2⟩)
      hzmis (canvasWeak_init _ _ _).1 (canvasWeak_init _ _ _).2
      (Or.inl (by simp [Locals.init, Mat.default, Mat.empty]))
      (Or.inl (by simp [Locals.init, Mat.default, Mat.empty]))
    rw [hl]
    rfl

/-- The sample group whose second color image is wider than the first fails the
assertion. -/
theorem dimension_mismatch_asserts_witness :
    (commonCallback sampleEnv sampleRgbWide sampleDepth sampleInfos).dispatched = false ∧
    (commonCallback sampleEnv sampleRgbWide sampleDepth sampleInfos).asserted = true :=
  have hw := dimension_mismatch_asserts sampleEnv sampleRgbWide sampleDepth sampleInfos
    (sampleImage 5 "cam0" "mono8" 2 3 CV_8UC1 100) rfl rfl rfl (Or.inl (by decide))
  ⟨hw.1, hw.2 (by decide) (by decide) (by decide) (by decide) (by decide) CV_16UC1
    (by decide)⟩

/-- C4 fails as stated. In the sample group all encodings are supported and the second
color image is wider than the first: the call does not return normally, it fails the
`UASSERT_MSG` on the size of the color image. -/
theorem dimension_mismatch_not_recovered :
    (∀ img ∈ sampleRgbWide, img.encoding ∈ colorEncodings) ∧
    (∀ img ∈ sampleDepth, img.encoding ∈ depthEncodings) ∧
    (∃ img ∈ sampleRgbWide, ¬ (img.image.cols = 3 ∧ img.image.rows = 2)) ∧
    (commonCallback sampleEnv sampleRgbWide sampleDepth sampleInfos).abandoned = false ∧
    (commonCallback sampleEnv sampleRgbWide sampleDepth sampleInfos).asserted = true := by
  decide

/-! ## C9: `updateParameters` -/

theorem find_uInsert_self (value : String) :
    ∀ (m : ParametersMap) (key : String), find (uInsert m (key, value)) key = some value := by
  intro m
  induction m with
  | nil =>
    intro key
    simp [uInsert, find]
  | cons e rest ih =>
    intro key
    obtain ⟨k, v⟩ := e
    simp only [uInsert]
    split
    · rename_i hk
      simp only [find]
      rw [if_pos hk]
    · rename_i hk
      simp only [find]
      rw [if_neg hk]
      exact ih key

theorem find_uInsert_other (value : String) :
    ∀ (m : ParametersMap) (key other : String), other ≠ key →
      find (uInsert m (key, value)) other = find m other := by
  intro m
  induction m with
  | nil =>
    intro key other hne
    simp only [uInsert, find]
    rw [if_neg (fun h => hne h.symm)]
  | cons e rest ih =>
    intro key other hne
    obtain ⟨k, v⟩ := e
    simp only [uInsert]
    split
    · rename_i hk
      simp only [find]
      have hko : ¬ k = other := fun h => hne (h.symm.trans hk)
      rw [if_neg hko, if_neg hko]
    · simp only [find]
      split
      · rfl
      · exact ih key other hne

/-- C9. For every parameter map, after `updateParameters` the entry of `Reg/Strategy`
is present with the value "0", whatever it was before, and the lookup of every other key
gives what it gave before: its value when the key was present, nothing when it was not. -/
theorem updateParameters_forces_reg_strategy (parameters : ParametersMap) :
    find (updateParameters parameters).1 kRegStrategy = some "0" ∧
    ∀ key, key ≠ kRegStrategy →
      find (updateParameters parameters).1 key = find parameters key :=
  ⟨find_uInsert_self "0" parameters kRegStrategy,
    fun key hne => find_uInsert_other "0" parameters kRegStrategy key hne⟩

/-- The sample map, whose registration strategy was "2", after `updateParameters`. -/
theorem updateParameters_forces_reg_strategy_witness :
    find (updateParameters sampleParameters).1 "Reg/Strategy" = some "0" ∧
    find (updateParameters sampleParameters).1 "Vis/MaxFeatures" = some "600" ∧
    find (updateParameters sampleParameters).1 "Mem/STMSize" = none :=
  ⟨(updateParameters_forces_reg_strategy sampleParameters).1,
    (updateParameters_forces_reg_strategy sampleParameters).2 "Vis/MaxFeatures" (by decide),
    (updateParameters_forces_reg_strategy sampleParameters).2 "Mem/STMSize" (by decide)⟩

/-! ## C8: rig counts outside 1 and 2 -/

/-- C8, as the code has it. For a rig count of zero or less `onOdomInit` reports no fatal
diagnostic, takes the count to be 1 and activates the input topology of a count of 1;
for a rig count of three or more it reports the fatal diagnostic
"Only 2 cameras maximum supported yet.". -/
theorem rig_count_outside_range (pnh : PrivateParams) (count : Int)
    (hc : pnh.rgbd_cameras = some count) :
    (count ≤ 0 →
      onOdomInit pnh Node.init = onOdomInit { pnh with rgbd_cameras := some 1 } Node.init ∧
      (onOdomInit pnh Node.init).fatalReported = false ∧
      (onOdomInit pnh Node.init).noTopology = false) ∧
    (2 < count →
      (Severity.fatal, "Only 2 cameras maximum supported yet.") ∈
        (onOdomInit pnh Node.init).log ∧
      (onOdomInit pnh Node.init).fatalReported = true) := by
  obtain ⟨a, q, sr, dc, rc⟩ := pnh
  simp only at hc
  subst hc
  constructor
  · intro hle
    refine ⟨?_, ?_, ?_⟩
    all_goals
      rcases a with _ | _ | _ <;> rcases sr with _ | _ | _ <;> cases dc <;>
        simp [onOdomInit, hle, Node.init, Node.noTopology, Node.fatalReported]
  · intro hgt
    have hle : ¬ (count ≤ 0) := by omega
    have hne : ¬ (count = 2) := by omega
    have hgt2 : count > 2 := hgt
    refine ⟨?_, ?_⟩
    all_goals
      rcases a with _ | _ | _ <;> rcases sr with _ | _ | _ <;> cases dc <;>
        simp [onOdomInit, hle, hne, hgt2, Node.init, Node.fatalReported]

/-- The counts 0 and 3 with no other parameter set: for 0 the node does what it does for
a count of 1, without a fatal diagnostic; for 3 the fatal diagnostic is reported. -/
theorem rig_count_outside_range_witness :
    (onOdomInit (sampleParams 0) Node.init = onOdomInit (sampleParams 1) Node.init ∧
      (onOdomInit (sampleParams 0) Node.init).fatalReported = false ∧
      (onOdomInit (sampleParams 0) Node.init).noTopology = false) ∧
    ((Severity.fatal, "Only 2 cameras maximum supported yet.") ∈
        (onOdomInit (sampleParams 3) Node.init).log ∧
      (onOdomInit (sampleParams 3) Node.init).fatalReported = true) :=
  ⟨(rig_count_outside_range (sampleParams 0) 0 rfl).1 (by decide),
    (rig_count_outside_range (sampleParams 3) 3 rfl).2 (by decide)⟩

/-- C8 fails as stated. With a rig count of 0 no fatal diagnostic is reported and the
subscribers of the split single-camera topology subscribe; with a rig count of 3 the
fatal diagnostic is reported and the same topology is activated all the same. -/
theorem rig_count_zero_or_three_activates_topology :
    (onOdomInit (sampleParams 0) Node.init).fatalReported = false ∧
    (onOdomInit (sampleParams 0) Node.init).noTopology = false ∧
    (onOdomInit (sampleParams 0) Node.init).image_mono_sub_ = some "rgb/image" ∧
    (onOdomInit (sampleParams 0) Node.init).approxSync_ = true ∧
    (onOdomInit (sampleParams 3) Node.init).fatalReported = true ∧
    (onOdomInit (sampleParams 3) Node.init).noTopology = false ∧
    (onOdomInit (sampleParams 3) Node.init).image_mono_sub_ = some "rgb/image" ∧
    (onOdomInit (sampleParams 3) Node.init).approxSync_ = true := by
  decide

end RGBDOdometry
